import Mathlib

/-!
Verification of the adaptive weighted problem-generation core of the Flashr
terminal quiz engine, against its Rust sources.

Conventions of the shallow embedding:

* Rust `f64` weights are modelled as rationals (ℚ); arithmetic is exact.
* Rust panics (`assert!`, `expect`, out-of-bounds indexing, drawing from an
  empty `gen_range` range) are modelled as explicit error constructors or as
  `Option`/`Except` results, never as silent default values on the verified
  paths.
* Randomness is modelled by explicit oracle parameters: the `f64` drawn by
  `rng.gen_range(0.0..total)` becomes an explicit rational `needle`;
  each shuffled iteration (`into_iter_shuffled`, `SliceRandom::shuffle`)
  becomes an explicit list or function parameter, constrained in theorems to
  be a permutation of the list the code shuffles.  Universally quantified
  theorems therefore cover every outcome the random source can produce, and
  concrete instantiations pick one reachable outcome.
-/

namespace Flashr

/-- Model of `Face` from `src/deck.rs`: a card face is a single string or a list of
alternative renderings.  Rust derives structural `PartialEq`. -/
inductive Face where
  | single (s : String)
  | multi (ss : List String)
deriving DecidableEq, Repr

/-- Model of `Face::contains` from `src/deck.rs`, specialised to the `","` pattern
(its only use, in `infer_separator`): whether any string of the face
contains a comma.  The substring search of Rust `str::contains(",")` for
the one-character pattern is a character scan. -/
def Face.containsComma (f : Face) : Bool :=
  match f with
  | .single s => s.data.any (fun c => c = ',')
  | .multi ss => ss.any (fun s => s.data.any (fun c => c = ','))

/-- Model of `Face::infer_separator` from `src/deck.rs`. -/
def Face.infer_separator (f : Face) : String :=
  if f.containsComma then "; " else ", "

/-- Model of `Face::join` from `src/deck.rs`. -/
def Face.join (f : Face) (sep : String) : String :=
  match f with
  | .single s => s
  | .multi ss => String.intercalate sep ss

/-- Model of `Display for Face` from `src/deck.rs`: join with the inferred separator. -/
def Face.display (f : Face) : String :=
  f.join f.infer_separator

/-- Model of `Face::join_random` from `src/deck.rs`, with the shuffle of the cloned
alternative list supplied explicitly by the oracle `shuf`.  The one-argument
wrapper used by `modes/match_faces/iter.rs` is absent from `src/`; per the
spec ("Display joins `Multi` values with an inferred separator; a randomized
join (`join_random`) shuffles the alternatives before joining") it joins with
the face's inferred separator, exactly as the older revision
`modes/match_faces.rs` calls `join_random(face.infer_separator(), rng)`. -/
def Face.join_random (f : Face) (shuf : List String → List String) : String :=
  match f with
  | .single s => s
  | .multi ss => String.intercalate f.infer_separator (shuf ss)

/-- Model of `Card` from `src/deck.rs`: an index-aligned vector of optional faces. -/
structure Card where
  faces : List (Option Face)
deriving DecidableEq, Repr

/-- Model of `Card::front` from `src/deck.rs`: the first present face. -/
def Card.front (c : Card) : Option Face :=
  c.faces.findSome? id

/-- Model of `Deck` from `src/deck.rs`. -/
structure Deck where
  name : String
  faces : List String
  cards : List Card
deriving DecidableEq, Repr

/-- Model of `DeckCard`: the `(deck, card)` pair the generator works on.  Its
definition lives in the crate root missing from `src/`; every use site
(`iter.rs`, `flashcards/mod.rs`, `stats.rs`) treats it as a deck together
with one of its cards, as the spec's §3 data model describes. -/
structure DeckCard where
  deck : Deck
  card : Card
deriving DecidableEq, Repr

/-- Model of `CardId::get` from `src/deck.rs`: `deckName + ":" + frontFaceDisplay`.
`Card::front_string` panics when the card has no present face, hence the
`Option`. -/
def cardId (dc : DeckCard) : Option String :=
  dc.card.front.map (fun f => dc.deck.name ++ ":" ++ f.display)

/-- Model of `CardStats` from `src/stats.rs`. -/
structure CardStats where
  correct : Nat
  incorrect : Nat
deriving DecidableEq, Repr

/-- Model of `CardStats::weight` from `src/stats.rs`:
`1.0 / (correct.saturating_sub(incorrect) + 1) + incorrect.saturating_sub(correct)`,
with `f64` modelled as ℚ and `saturating_sub` as truncated `Nat` subtraction. -/
def CardStats.weight (s : CardStats) : ℚ :=
  1 / ((s.correct - s.incorrect : Nat) + 1 : ℚ) + ((s.incorrect - s.correct : Nat) : ℚ)

theorem CardStats.weight_pos (s : CardStats) : 0 < s.weight := by
  have h1 : (0:ℚ) < ((s.correct - s.incorrect : Nat) + 1 : ℚ) := by positivity
  have h2 : (0:ℚ) < 1 / ((s.correct - s.incorrect : Nat) + 1 : ℚ) := by positivity
  have h3 : (0:ℚ) ≤ ((s.incorrect - s.correct : Nat) : ℚ) := by positivity
  unfold CardStats.weight
  linarith

/-- Model of `WeightedList` from `src/weighted_list.rs`: items with weights plus a
running total. -/
structure WeightedList (α : Type) where
  items : List (α × ℚ)
  total_weight : ℚ
deriving Repr

/-- Sum of the stored per-item weights. -/
def sumWeights {α : Type} (l : WeightedList α) : ℚ :=
  (l.items.map Prod.snd).sum

/-- Model of `WeightedList::with_capacity` (capacity is irrelevant to the model). -/
def WeightedList.empty (α : Type) : WeightedList α := ⟨[], 0⟩

/-- Model of `WeightedList::add` from `src/weighted_list.rs`.  The
`assert!(weight >= 0.0)` panic is modelled as `none`. -/
def WeightedList.add {α : Type} (l : WeightedList α) (item : α × ℚ) :
    Option (WeightedList α) :=
  if item.2 < 0 then none
  else some ⟨l.items ++ [item], l.total_weight + item.2⟩

/-- Model of `WeightedList::change_weight` from `src/weighted_list.rs`.  `none`
models the `assert!(weight >= 0.0)` panic and the out-of-bounds indexing
panic of `&mut self.items[index]`. -/
def WeightedList.change_weight {α : Type} (l : WeightedList α) (index : Nat)
    (weight : ℚ) : Option (WeightedList α) :=
  if weight < 0 then none
  else
    match l.items[index]? with
    | none => none
    | some item =>
        some ⟨l.items.set index (item.1, weight),
              (l.total_weight - item.2) + weight⟩

/-- Model of `WeightedList::weights` from `src/weighted_list.rs`. -/
def WeightedList.weights {α : Type} (l : WeightedList α) : List ℚ :=
  l.items.map Prod.snd

/-- Outcome of `WeightedList::random_index`: `empty` is the `None` return,
`panicRange` the panic of `gen_range(0.0..total)` on an empty range
(`total ≤ 0`), `panicScan` the `panic!("Reached end without finding match")`,
and `ok i` the `Some(i)` return. -/
inductive DrawResult where
  | empty
  | panicRange
  | panicScan
  | ok (i : Nat)
deriving DecidableEq, Repr

/-- The cumulative-weight scan of `random_index`: running total starts at
`acc`; returns the first index whose cumulative weight exceeds the needle. -/
def cumFind {α : Type} (needle : ℚ) : List (α × ℚ) → ℚ → Option Nat
  | [], _ => none
  | (_, w) :: rest, acc =>
      if needle < acc + w then some 0
      else (cumFind needle rest (acc + w)).map (· + 1)

/-- Model of `random_index` from `src/weighted_list.rs` (`RandomIndex for
WeightedList`): 0 items → `None`; 1 item → `Some(0)`; otherwise draw
`needle ∈ [0, total_weight)` (the drawn value is the explicit `needle`
parameter; the draw itself panics when the range is empty, i.e.
`total_weight ≤ 0`) and linearly scan cumulative weights. -/
def WeightedList.random_index {α : Type} (l : WeightedList α) (needle : ℚ) :
    DrawResult :=
  match l.items.length with
  | 0 => .empty
  | 1 => .ok 0
  | _ + 2 =>
      if l.total_weight ≤ 0 then .panicRange
      else
        match cumFind needle l.items 0 with
        | some i => .ok i
        | none => .panicScan

/-- Outcome of `GetRandom for &WeightedList::get_random`. -/
inductive GetResult (α : Type) where
  | empty
  | panicked
  | drawn (a : α) (i : Nat)
deriving DecidableEq, Repr

/-- Model of `get_random` from `src/weighted_list.rs`: map `random_index` through the
item lookup.  The unreachable out-of-bounds lookup is also `panicked`. -/
def WeightedList.get_random {α : Type} (l : WeightedList α) (needle : ℚ) :
    GetResult α :=
  match l.random_index needle with
  | .empty => .empty
  | .panicRange => .panicked
  | .panicScan => .panicked
  | .ok i =>
      match l.items[i]? with
      | some item => .drawn item.1 i
      | none => .panicked

/-- An entry of `possible_faces`: `(face index, face name, face value)`,
matching the destructuring in `iter.rs` and `flashcards/mod.rs`. -/
abbrev PossibleFace := Nat × String × Face

/-- Model of `DeckCard::possible_faces`.  Modelled from the spec: the defining crate
root is absent from `src/`; spec §4.3 step 2 says "Compute `possibleFaces`:
the indices/names of faces present (non-null) on `problemPair`'s card", and
both use sites (`iter.rs`, `flashcards/mod.rs`) destructure entries as
`(index, deck face name, card face value)`. -/
def DeckCard.possible_faces (dc : DeckCard) : List PossibleFace :=
  (dc.deck.faces.zip dc.card.faces).enum.filterMap
    (fun e => e.2.2.map (fun v => (e.1, e.2.1, v)))

/-- The candidate-face lookup of `iter.rs` lines 114-122 and 130-139:
`deck.faces.iter().enumerate().find_map(|(i, face)| (face == name).and_then(|| card[i].as_ref()))`
— the first face position whose name matches and whose card slot is present.
(The index pairing is by `zip`; by deck validation every card has exactly as
many slots as the deck has face names.) -/
def findFaceValue (dc : DeckCard) (name : String) : Option Face :=
  (dc.deck.faces.zip dc.card.faces).findSome?
    (fun fc => if fc.1 = name then fc.2 else none)

/-- Model of `PromptCard` (crate root, used by `iter.rs`): a rendered prompt string
bound to its originating deck-card and container index. -/
structure PromptCard where
  prompt : String
  deck_card : DeckCard
  index : Nat
deriving DecidableEq, Repr

/-- Model of `MatchProblem` from `src/modes/match_faces/mod.rs`. -/
structure MatchProblem where
  question : PromptCard
  answers : List (PromptCard × Bool)
  answer_index : Nat
  weights : Option (List ℚ)
deriving Repr

/-- Outcome of `MatchProblemIterator::next`: `exhausted` is the `None`
return of the iterator, `panicked msg` models the `expect`/`panic!` paths,
`mismatch msg` the `Some(Err(FlashrError::DeckMismatch(msg)))` return, and
`ok p` the `Some(Ok(p))` return. -/
inductive NextResult where
  | exhausted
  | panicked (msg : String)
  | mismatch (msg : String)
  | ok (p : MatchProblem)

/-- An element yielded by the shuffled candidate scan over the cloned
weighted list: the `((deck_card, weight), card_index)` of
`into_iter_shuffled` (the index is the swap-removal position reported by
`RemoveRandom for WeightedList`). -/
abbrev CandEntry := (DeckCard × ℚ) × Nat

/-- An element of `answer_cards` in `iter.rs`:
`((answer_face, deck_card, card_index), correct)`. -/
abbrev AnswerEntry := (Face × DeckCard × Nat) × Bool

/-- The oracle for one call of `next`: the random draw and every shuffled
order consumed by `iter.rs`.  `qsel`/`asel` stand for the two shuffled
iterations over `possible_faces`, `cands` for the shuffled iteration over
the cloned weighted list, `ansShuffle` for `answer_cards.shuffle(rng)`, and
`jshuf` for the shuffles inside `join_random`. -/
structure NextChoices where
  needle : ℚ
  qsel : List PossibleFace
  asel : List PossibleFace
  cands : List CandEntry
  ansShuffle : List AnswerEntry → List AnswerEntry
  jshuf : List String → List String

/-- Question/answer face selection of `iter.rs` lines 74-99.  With a face
filter: first entry of the shuffled faces whose name is in the filter
(`expect`: "Unable to find a valid question face"), then first entry of a
second shuffle with a different index (`expect`: "Unable to find a valid
answer face").  Without a filter, the first two entries of one shuffled
iteration; `OptionTuple`'s collect is absent from `src/` and is modelled
from the spec's "shuffle `possibleFaces` and take the first two entries". -/
def selectFaces (filter? : Option (List String))
    (qsel asel : List PossibleFace) :
    Except String (PossibleFace × PossibleFace) :=
  match filter? with
  | some faces =>
      match qsel.find? (fun pf => faces.any (fun s => pf.2.1 = s)) with
      | none => .error "Unable to find a valid question face"
      | some q =>
          match asel.find? (fun pf => pf.1 ≠ q.1) with
          | none => .error "Unable to find a valid answer face"
          | some a => .ok (q, a)
  | none =>
      match qsel with
      | q :: a :: _ => .ok (q, a)
      | _ => .error "Unable to find valid question and answer faces"

/-- The distractor scan of `iter.rs` lines 110-153 (the `filter_map` body),
over the shuffled candidates, threading the `seen_faces` list.  Returns the
accepted `(answer_face, deck_card, card_index)` entries together with the
final `seen_faces`.  Note the order inside one step: a fresh answer-face
value is pushed onto `seen_faces` *before* the question-face collision check
runs. -/
def scanStep (qf af : String) (pqv : Face) :
    List CandEntry → List Face → List (Face × DeckCard × Nat) × List Face
  | [], seen => ([], seen)
  | c :: rest, seen =>
      match findFaceValue c.1.1 af with
      | none => scanStep qf af pqv rest seen
      | some v =>
          if v ∈ seen then scanStep qf af pqv rest seen
          else if (match findFaceValue c.1.1 qf with
                   | some qv => decide (qv = pqv)
                   | none => false : Bool) then
            scanStep qf af pqv rest (v :: seen)
          else
            let r := scanStep qf af pqv rest (v :: seen)
            ((v, c.1.1, c.2) :: r.1, r.2)

/-- The `DeckMismatch` message of `iter.rs` line 157:
`format!("Cannot find enough answers for question {q}, which is a \"{qf}\" face, from deck {d}, given answer face \"{af}\"")`
(`{q}` goes through `Display for Face`). -/
def mismatchMsg (pqv : Face) (qf dname af : String) : String :=
  "Cannot find enough answers for question " ++ pqv.display ++
    ", which is a \"" ++ qf ++ "\" face, from deck " ++ dname ++
    ", given answer face \"" ++ af ++ "\""

/-- Rendering of the shuffled answer list into the `answers` field of
`MatchProblem` (`iter.rs` lines 174-187): each entry becomes a `PromptCard`
whose prompt is the randomized join of its answer face. -/
def renderAnswers (jshuf : List String → List String)
    (entries : List AnswerEntry) : List (PromptCard × Bool) :=
  entries.map (fun e =>
    ({ prompt := e.1.1.join_random jshuf,
       deck_card := e.1.2.1,
       index := e.1.2.2 }, e.2))

/-- Model of `ANSWERS_PER_PROBLEM` from `src/modes/match_faces/mod.rs`. -/
def ANSWERS_PER_PROBLEM : Nat := 4

/-- The `answer_cards` list assembled by `next` (`iter.rs` lines 101-153):
the correct entry built from the problem card, followed by up to 3 accepted
distractors from the scan seeded with the problem's answer-face value. -/
def answerCards (dc : DeckCard) (pidx : Nat) (q a : PossibleFace)
    (cands : List CandEntry) : List AnswerEntry :=
  ((a.2.2, dc, pidx), true) ::
    (((scanStep q.2.1 a.2.1 q.2.2 cands [a.2.2]).1).take
        (ANSWERS_PER_PROBLEM - 1)).map (fun x => (x, false))

/-- Model of `MatchProblemIterator::next` from `src/modes/match_faces/iter.rs`:
draw a card from the weighted list, select question and answer faces, seed
`seen_faces` with the problem's answer-face value, scan the shuffled clone
of the weighted list for up to 3 distractors, fail with `DeckMismatch` when
fewer than 4 answers are assembled, else shuffle the answers, locate the
correct index, and render the problem. -/
def next (wl : WeightedList DeckCard) (filter? : Option (List String))
    (line : Bool) (ch : NextChoices) : NextResult :=
  match wl.get_random ch.needle with
  | .empty => .exhausted
  | .panicked => .panicked "cannot sample empty range"
  | .drawn dc pidx =>
      match selectFaces filter? ch.qsel ch.asel with
      | .error msg => .panicked msg
      | .ok (q, a) =>
          let answer_cards := answerCards dc pidx q a ch.cands
          if answer_cards.length < ANSWERS_PER_PROBLEM then
            .mismatch (mismatchMsg q.2.2 q.2.1 dc.deck.name a.2.1)
          else
            let shuffled := ch.ansShuffle answer_cards
            match shuffled.findIdx? (fun e => e.2) with
            | none => .panicked "Unable to find answer index after shuffling"
            | some aidx =>
                .ok { question := { prompt := q.2.2.join_random ch.jshuf,
                                    deck_card := dc,
                                    index := pidx },
                      answers := renderAnswers ch.jshuf shuffled,
                      answer_index := aidx,
                      weights := if line then some wl.weights else none }

/-- The flattened pool of `(deck, card)` pairs handed to
`MatchProblemIterator::new`.  Modelled from the spec: `ModeArguments` lives
in the crate root absent from `src/`; spec §2 data flow: "DeckRepository
(external) → flattened (Deck, Card) pairs → WeightedContainer seeded with
PerformanceModel-derived weights". -/
def flattenDecks (decks : List Deck) : List DeckCard :=
  decks.flatMap (fun d => d.cards.map (fun c => ⟨d, c⟩))

/-- The weighted-list construction of `MatchProblemIterator::new`
(`iter.rs` lines 50-57): fold `add` over the deck-cards, each weighted by
`stats.for_card(&deck_card).weight()`.  `Stats` is modelled as a total map
from `CardId` strings to `CardStats` (`for_card` lazily creates zero-valued
entries, which is extensionally a total map); `none` propagates the panic
of `Card::front_string` on a card with no present face. -/
def newIter (deck_cards : List DeckCard) (stats : String → CardStats) :
    Option (WeightedList DeckCard) :=
  deck_cards.foldlM
    (fun wl dc => (cardId dc).bind (fun id => wl.add (dc, (stats id).weight)))
    (WeightedList.empty DeckCard)

/-- Model of `MatchResult` from `src/modes/match_faces/mod.rs`. -/
inductive MatchResult where
  | correct (card : PromptCard)
  | incorrect (q : PromptCard) (a : PromptCard)

/-- The mutable session state threaded through `match_faces`
(`src/modes/match_faces/mod.rs`): the stats map, the iterator's weighted
list, and the running correct count. -/
structure SessionState where
  stats : String → CardStats
  wl : WeightedList DeckCard
  total_correct : Nat

/-- Model of `update_correct` from `src/modes/match_faces/mod.rs` lines 50-54:
bump the card's `correct` counter, then push the freshly computed weight at
the card's container index.  `none` models the `front_string` panic inside
`for_card_mut` and the panics of `change_weight`. -/
def update_correct (card : PromptCard) (st : SessionState) :
    Option SessionState :=
  match cardId card.deck_card with
  | none => none
  | some id =>
      let stats' := fun k =>
        if k = id then { st.stats id with correct := (st.stats id).correct + 1 }
        else st.stats k
      (st.wl.change_weight card.index (stats' id).weight).map
        (fun wl' => { st with stats := stats', wl := wl' })

/-- Model of `update_incorrect` from `src/modes/match_faces/mod.rs` lines 56-60. -/
def update_incorrect (card : PromptCard) (st : SessionState) :
    Option SessionState :=
  match cardId card.deck_card with
  | none => none
  | some id =>
      let stats' := fun k =>
        if k = id then
          { st.stats id with incorrect := (st.stats id).incorrect + 1 }
        else st.stats k
      (st.wl.change_weight card.index (stats' id).weight).map
        (fun wl' => { st with stats := stats', wl := wl' })

/-- Model of `match_result` from `src/modes/match_faces/mod.rs` lines 62-78: on a
correct result bump `total_correct` and update the question card; on an
incorrect result update the question card, then the chosen wrong answer
card. -/
def match_result (r : MatchResult) (st : SessionState) :
    Option SessionState :=
  match r with
  | .correct card =>
      update_correct card { st with total_correct := st.total_correct + 1 }
  | .incorrect q a => (update_incorrect q st).bind (update_incorrect a)

/-- The result resolution of `show_match_problem_result`
(`src/modes/match_faces/mod.rs` lines 149 and 160-173): answering index
`i` is correct iff `i == problem.answer_index`; otherwise the result pairs
the question with the chosen wrong answer card (the `expect` on a missing
index is `none`). -/
def resolve_match_result (p : MatchProblem) (index_answered : Nat) :
    Option MatchResult :=
  if index_answered = p.answer_index then some (.correct p.question)
  else
    (p.answers[index_answered]?).map (fun e => .incorrect p.question e.1)

section Helpers

/-- Setting a list slot to its current value is the identity. -/
theorem list_set_self {α : Type} :
    ∀ (l : List α) (i : Nat) (h : i < l.length), l.set i l[i] = l := by
  intro l
  induction l with
  | nil => intro i h; simp at h
  | cons a t ih =>
      intro i h
      cases i with
      | zero => simp
      | succ j =>
          simp only [List.set_cons_succ, List.getElem_cons_succ]
          rw [ih j (by simpa using h)]

/-- Sum of a mapped list after a `set`, in terms of the replaced element. -/
theorem sum_map_set {α : Type} (f : α → ℚ) :
    ∀ (l : List α) (i : Nat) (x : α) (h : i < l.length),
      ((l.set i x).map f).sum = (l.map f).sum - f l[i] + f x := by
  intro l
  induction l with
  | nil => intro i x h; simp at h
  | cons a t ih =>
      intro i x h
      cases i with
      | zero => simp [List.set_cons_zero]; ring
      | succ j =>
          have hj : j < t.length := by simpa using h
          simp only [List.set_cons_succ, List.map_cons, List.sum_cons,
            List.getElem_cons_succ, ih j x hj]
          ring

/-- The cumulative scan of `random_index` finds an in-bounds index whenever
the needle lies between the running total so far and the final total. -/
theorem cumFind_some {α : Type} (needle : ℚ) :
    ∀ (l : List (α × ℚ)) (acc : ℚ), acc ≤ needle →
      needle < acc + (l.map Prod.snd).sum →
      ∃ i, i < l.length ∧ cumFind needle l acc = some i := by
  intro l
  induction l with
  | nil =>
      intro acc hle hlt
      simp only [List.map_nil, List.sum_nil, add_zero] at hlt
      exact absurd hle (not_le.mpr hlt)
  | cons a t ih =>
      intro acc hle hlt
      by_cases hhit : needle < acc + a.2
      · exact ⟨0, by simp, by simp [cumFind, hhit]⟩
      · have hle' : acc + a.2 ≤ needle := not_lt.mp hhit
        have hlt' : needle < (acc + a.2) + (t.map Prod.snd).sum := by
          simp only [List.map_cons, List.sum_cons] at hlt
          linarith
        obtain ⟨j, hj, heq⟩ := ih (acc + a.2) hle' hlt'
        refine ⟨j + 1, by simpa using hj, ?_⟩
        simp [cumFind, hhit, heq]

/-- Under the running-total invariant, with a positive total and an
in-range needle, `random_index` returns a valid index. -/
theorem random_index_valid {α : Type} (l : WeightedList α) (needle : ℚ)
    (hsum : l.total_weight = sumWeights l) (hpos : 0 < l.total_weight)
    (hn0 : 0 ≤ needle) (hn1 : needle < l.total_weight) :
    ∃ i, i < l.items.length ∧ l.random_index needle = .ok i := by
  obtain ⟨items, total⟩ := l
  simp only [sumWeights] at hsum
  rcases items with _ | ⟨a, _ | ⟨b, rest⟩⟩
  · simp at hsum
    rw [hsum] at hpos
    exact absurd hpos (lt_irrefl 0)
  · exact ⟨0, by simp, rfl⟩
  · have hscan : ∃ i, i < (a :: b :: rest).length ∧
        cumFind needle (a :: b :: rest) 0 = some i := by
      apply cumFind_some needle (a :: b :: rest) 0 hn0
      rw [zero_add]
      calc needle < total := hn1
        _ = ((a :: b :: rest).map Prod.snd).sum := hsum
    obtain ⟨i, hi, heq⟩ := hscan
    refine ⟨i, hi, ?_⟩
    have hnot : ¬ total ≤ 0 := not_le.mpr hpos
    simp [WeightedList.random_index, hnot, heq]

/-- The `get_random` form of `random_index_valid`. -/
theorem get_random_valid {α : Type} (l : WeightedList α) (needle : ℚ)
    (hsum : l.total_weight = sumWeights l) (hpos : 0 < l.total_weight)
    (hn0 : 0 ≤ needle) (hn1 : needle < l.total_weight) :
    ∃ i it, l.items[i]? = some it ∧
      l.get_random needle = .drawn it.1 i := by
  obtain ⟨i, hi, heq⟩ := random_index_valid l needle hsum hpos hn0 hn1
  refine ⟨i, l.items[i], List.getElem?_eq_getElem hi, ?_⟩
  unfold WeightedList.get_random
  rw [heq]
  dsimp only
  rw [List.getElem?_eq_getElem hi]

end Helpers

/-- C4: for every `CardStats` with counters `correct = c` and
`incorrect = i`, the sampling weight computed by `CardStats::weight` equals
`1.0 / (max(c − i, 0) + 1) + max(i − c, 0)`, both subtractions saturating
at zero. -/
theorem c4_weight_formula (c i : Nat) :
    CardStats.weight ⟨c, i⟩ =
      1 / (max ((c : ℚ) - (i : ℚ)) 0 + 1) + max ((i : ℚ) - (c : ℚ)) 0 := by
  unfold CardStats.weight
  rcases Nat.le_total c i with h | h
  · rw [Nat.sub_eq_zero_of_le h, Nat.cast_sub h,
      max_eq_right (by simp [Nat.cast_le.mpr h] : (c:ℚ) - (i:ℚ) ≤ 0),
      max_eq_left (by simp [Nat.cast_le.mpr h] : (0:ℚ) ≤ (i:ℚ) - (c:ℚ))]
    norm_num
  · rw [Nat.sub_eq_zero_of_le h, Nat.cast_sub h,
      max_eq_left (by simp [Nat.cast_le.mpr h] : (0:ℚ) ≤ (c:ℚ) - (i:ℚ)),
      max_eq_right (by simp [Nat.cast_le.mpr h] : (i:ℚ) - (c:ℚ) ≤ 0)]
    norm_num

/-- C7: `get_random` on an empty `WeightedList` returns `None`; on a
single-element list it always returns that element with index 0, for every
drawn needle and for every stored weight (including weight zero). -/
theorem c7_get_random_empty_single :
    (∀ (α : Type) (t needle : ℚ),
        (WeightedList.mk ([] : List (α × ℚ)) t).get_random needle = .empty) ∧
    (∀ (α : Type) (x : α) (w t needle : ℚ),
        (WeightedList.mk [(x, w)] t).get_random needle = .drawn x 0) := by
  constructor
  · intro α t needle; rfl
  · intro α x w t needle; rfl

/-- C10: with two or more items and `total_weight = 0`, `random_index`
panics (the `gen_range(0.0..total_weight)` draw over an empty range fails)
rather than returning `None` or an element; conversely, whenever
`total_weight` is strictly positive and equals the sum of the stored
weights and the drawn needle lies in `[0, total_weight)`, the end-of-scan
panic is unreachable and a valid index below the length is returned. -/
theorem c10_draw_panics_and_validity :
    (∀ (α : Type) (l : WeightedList α) (needle : ℚ),
        2 ≤ l.items.length → l.total_weight = 0 →
        l.random_index needle = .panicRange) ∧
    (∀ (α : Type) (l : WeightedList α) (needle : ℚ),
        l.total_weight = sumWeights l → 0 < l.total_weight →
        0 ≤ needle → needle < l.total_weight →
        ∃ i, i < l.items.length ∧ l.random_index needle = .ok i) := by
  constructor
  · intro α l needle hlen h0
    obtain ⟨m, hm⟩ : ∃ m, l.items.length = m + 2 :=
      ⟨l.items.length - 2, by omega⟩
    simp [WeightedList.random_index, hm, h0]
  · intro α l needle hsum hpos hn0 hn1
    exact random_index_valid l needle hsum hpos hn0 hn1

/-- Witness for C10 at concrete inputs: a two-element zero-weight list
panics on the draw, and a one-element unit-weight list yields a valid
index. -/
theorem c10_draw_panics_and_validity_witness :
    (WeightedList.mk [((0:Nat), (0:ℚ)), (1, 0)] 0).random_index 0
        = .panicRange ∧
    ∃ i, i < (WeightedList.mk [((0:Nat), (1:ℚ))] 1).items.length ∧
      (WeightedList.mk [((0:Nat), (1:ℚ))] 1).random_index 0 = .ok i := by
  constructor
  · exact c10_draw_panics_and_validity.1 Nat _ 0 (by norm_num) rfl
  · exact c10_draw_panics_and_validity.2 Nat _ 0
      (by simp [sumWeights]) (by norm_num) le_rfl (by norm_num)

/-- C6: after `change_weight(i, w)` with `w ≥ 0` on a valid index of a list
whose running total equals the sum of its weights, the stored weight at
slot `i` equals `w`, the total again equals the sum of all per-item weights
(exactly, over ℚ), and every item and every other slot's weight is
unchanged. -/
theorem c6_change_weight_conserves_total {α : Type} (l : WeightedList α)
    (i : Nat) (w : ℚ) (hw : 0 ≤ w) (hi : i < l.items.length)
    (hsum : l.total_weight = sumWeights l) :
    ∃ l', l.change_weight i w = some l' ∧
      (l'.items[i]?).map Prod.snd = some w ∧
      l'.total_weight = sumWeights l' ∧
      (∀ j, j ≠ i → l'.items[j]? = l.items[j]?) ∧
      l'.items.map Prod.fst = l.items.map Prod.fst := by
  have hget : l.items[i]? = some l.items[i] := List.getElem?_eq_getElem hi
  have hnneg : ¬ w < 0 := not_lt.mpr hw
  refine ⟨⟨l.items.set i (l.items[i].1, w),
      (l.total_weight - l.items[i].2) + w⟩, ?_, ?_, ?_, ?_, ?_⟩
  · simp [WeightedList.change_weight, hnneg, hget]
  · simp [List.getElem?_set_self (by simpa using hi)]
  · show (l.total_weight - l.items[i].2) + w
        = sumWeights ⟨l.items.set i (l.items[i].1, w), _⟩
    unfold sumWeights at hsum ⊢
    rw [sum_map_set Prod.snd l.items i (l.items[i].1, w) hi, hsum]
  · intro j hj
    exact List.getElem?_set_ne (fun h => hj h.symm)
  · show (l.items.set i (l.items[i].1, w)).map Prod.fst = l.items.map Prod.fst
    rw [List.map_set]
    have hlen : i < (l.items.map Prod.fst).length := by simpa using hi
    have h2 := list_set_self (l.items.map Prod.fst) i hlen
    simpa using h2

/-- Witness for C6 at a concrete input: replace the weight at slot 1 of a
two-element list by 5. -/
theorem c6_change_weight_conserves_total_witness :
    ∃ l', (WeightedList.mk [((0:Nat), (1:ℚ)), (1, 2)] 3).change_weight 1 5
        = some l' ∧
      (l'.items[1]?).map Prod.snd = some 5 ∧
      l'.total_weight = sumWeights l' ∧
      (∀ j, j ≠ 1 →
        l'.items[j]? = (WeightedList.mk [((0:Nat), (1:ℚ)), (1, 2)] 3).items[j]?) ∧
      l'.items.map Prod.fst
        = (WeightedList.mk [((0:Nat), (1:ℚ)), (1, 2)] 3).items.map Prod.fst :=
  c6_change_weight_conserves_total _ 1 5 (by norm_num) (by norm_num)
    (by simp [sumWeights]; norm_num)

/-- Replacing a slot's weight while keeping its item leaves the item list
(projected to items) unchanged. -/
theorem map_fst_set_weight {α : Type} (l : List (α × ℚ)) (i : Nat) (w : ℚ)
    (h : i < l.length) :
    (l.set i ((l[i]).1, w)).map Prod.fst = l.map Prod.fst := by
  rw [List.map_set]
  have := list_set_self (l.map Prod.fst) i (by simpa using h)
  simpa using this

/-- What one `update_incorrect` call does: bump the card's `incorrect`
counter and replace the weight at the card's container index by the weight
of the updated stats. -/
theorem update_incorrect_spec (card : PromptCard) (st : SessionState)
    (id : String) (hid : cardId card.deck_card = some id)
    (hi : card.index < st.wl.items.length) :
    ∃ st', update_incorrect card st = some st' ∧
      st'.stats = (fun k =>
        if k = id then
          { st.stats id with incorrect := (st.stats id).incorrect + 1 }
        else st.stats k) ∧
      st'.wl.items = st.wl.items.set card.index
        ((st.wl.items[card.index]).1, (st'.stats id).weight) ∧
      st'.total_correct = st.total_correct := by
  have hget : st.wl.items[card.index]? = some (st.wl.items[card.index]) :=
    List.getElem?_eq_getElem hi
  have hnneg : ¬ ({ st.stats id with
      incorrect := (st.stats id).incorrect + 1 } : CardStats).weight < 0 :=
    not_lt.mpr (CardStats.weight_pos _).le
  have heq : update_incorrect card st = some
      { stats := fun k =>
          if k = id then
            { st.stats id with incorrect := (st.stats id).incorrect + 1 }
          else st.stats k,
        wl := ⟨st.wl.items.set card.index ((st.wl.items[card.index]).1,
                 ({ st.stats id with
                     incorrect := (st.stats id).incorrect + 1 } : CardStats).weight),
               (st.wl.total_weight - (st.wl.items[card.index]).2) +
                 ({ st.stats id with
                     incorrect := (st.stats id).incorrect + 1 } : CardStats).weight⟩,
        total_correct := st.total_correct } := by
    simp only [update_incorrect, hid, WeightedList.change_weight, hnneg,
      if_false, hget, Option.map_some', if_pos rfl]
    simp only [if_true]
    simp [not_lt.mp hnneg]
  exact ⟨_, heq, rfl, by simp, rfl⟩

/-- C5 (amended): when the learner selects a wrong answer index, the
session runs `update_incorrect` on both the question card and the chosen
wrong answer card; *provided* the two cards carry distinct `CardId`s and
distinct container indices, each of the two stats entries has its
`incorrect` counter incremented by exactly 1 and its `correct` counter
unchanged, and the weight stored at each of the two indices is replaced by
the freshly computed weight of the respective updated stats, with all
other stats entries, all other weights, the stored items and the correct
count unchanged.  The code does not guarantee the provisos: a distractor's
`PromptCard.index` is the swap-removal position reported while draining
the cloned weighted list and can equal the question's container index, and
two distinct cards whose fronts render to the same string share a
`CardId` — see the counterexample. -/
theorem c5_incorrect_updates_both (p : MatchProblem) (idx : Nat)
    (st : SessionState) (aCard : PromptCard) (aflag : Bool) (qid aid : String)
    (hidx : idx ≠ p.answer_index)
    (hget : p.answers[idx]? = some (aCard, aflag))
    (hqid : cardId p.question.deck_card = some qid)
    (haid : cardId aCard.deck_card = some aid)
    (hne : qid ≠ aid)
    (hine : p.question.index ≠ aCard.index)
    (hqi : p.question.index < st.wl.items.length)
    (hai : aCard.index < st.wl.items.length) :
    ∃ st', (resolve_match_result p idx).bind (fun r => match_result r st)
        = some st' ∧
      st'.stats qid = { correct := (st.stats qid).correct,
                        incorrect := (st.stats qid).incorrect + 1 } ∧
      st'.stats aid = { correct := (st.stats aid).correct,
                        incorrect := (st.stats aid).incorrect + 1 } ∧
      (∀ k, k ≠ qid → k ≠ aid → st'.stats k = st.stats k) ∧
      (st'.wl.items[p.question.index]?).map Prod.snd
          = some (st'.stats qid).weight ∧
      (st'.wl.items[aCard.index]?).map Prod.snd
          = some (st'.stats aid).weight ∧
      (∀ j, j ≠ p.question.index → j ≠ aCard.index →
        st'.wl.items[j]? = st.wl.items[j]?) ∧
      st'.wl.items.map Prod.fst = st.wl.items.map Prod.fst ∧
      st'.total_correct = st.total_correct := by
  obtain ⟨st1, heq1, hs1, hw1, ht1⟩ :=
    update_incorrect_spec p.question st qid hqid hqi
  have hlen1 : st1.wl.items.length = st.wl.items.length := by
    rw [hw1, List.length_set]
  have hai1 : aCard.index < st1.wl.items.length := by rw [hlen1]; exact hai
  obtain ⟨st2, heq2, hs2, hw2, ht2⟩ :=
    update_incorrect_spec aCard st1 aid haid hai1
  have hresolve : resolve_match_result p idx
      = some (.incorrect p.question aCard) := by
    simp [resolve_match_result, hidx, hget]
  have hs1q : st1.stats qid
      = { st.stats qid with incorrect := (st.stats qid).incorrect + 1 } := by
    rw [hs1]; simp
  have hs1a : st1.stats aid = st.stats aid := by
    rw [hs1]; exact if_neg (Ne.symm hne)
  have hs2q : st2.stats qid = st1.stats qid := by
    rw [hs2]; exact if_neg hne
  have hs2a : st2.stats aid
      = { st.stats aid with incorrect := (st.stats aid).incorrect + 1 } := by
    rw [hs2]; simp [hs1a]
  refine ⟨st2, ?_, ?_, ?_, ?_, ?_, ?_, ?_, ?_, ?_⟩
  · simp [hresolve, match_result, heq1, heq2]
  · rw [hs2q, hs1q]
  · exact hs2a
  · intro k hkq hka
    simp only [hs2, hs1, if_neg hka, if_neg hkq]
  · rw [hw2, List.getElem?_set_ne (Ne.symm hine), hw1,
      List.getElem?_set_self (by simpa using hqi), hs2q]
    rfl
  · rw [hw2, List.getElem?_set_self (by simpa using hai1)]
    rfl
  · intro j hjq hja
    rw [hw2, List.getElem?_set_ne (Ne.symm hja), hw1,
      List.getElem?_set_ne (Ne.symm hjq)]
  · rw [hw2, map_fst_set_weight _ _ _ hai1, hw1,
      map_fst_set_weight _ _ _ hqi]
  · rw [ht2, ht1]

/-- Concrete data for the C5 witness: a question card from deck D1. -/
def w5dcq : DeckCard :=
  ⟨⟨"D1", ["F", "B"], [⟨[some (.single "q"), some (.single "qa")]⟩]⟩,
   ⟨[some (.single "q"), some (.single "qa")]⟩⟩

/-- Concrete data for the C5 witness: a wrong-answer card from deck D2. -/
def w5dca : DeckCard :=
  ⟨⟨"D2", ["F", "B"], [⟨[some (.single "w"), some (.single "wa")]⟩]⟩,
   ⟨[some (.single "w"), some (.single "wa")]⟩⟩

/-- Concrete problem for the C5 witness. -/
def w5p : MatchProblem :=
  ⟨⟨"q", w5dcq, 0⟩, [(⟨"qa", w5dcq, 0⟩, true), (⟨"wa", w5dca, 1⟩, false)],
   0, none⟩

/-- Concrete session state for the C5 witness. -/
def w5st : SessionState :=
  ⟨fun _ => ⟨0, 0⟩, ⟨[(w5dcq, 1), (w5dca, 1)], 2⟩, 0⟩

/-- Witness for C5 at the concrete problem `w5p`: the learner answers
index 1 while the correct index is 0. -/
theorem c5_incorrect_updates_both_witness :
    ∃ st', (resolve_match_result w5p 1).bind (fun r => match_result r w5st)
        = some st' ∧
      st'.stats "D1:q" = { correct := (w5st.stats "D1:q").correct,
                           incorrect := (w5st.stats "D1:q").incorrect + 1 } ∧
      st'.stats "D2:w" = { correct := (w5st.stats "D2:w").correct,
                           incorrect := (w5st.stats "D2:w").incorrect + 1 } ∧
      (∀ k, k ≠ "D1:q" → k ≠ "D2:w" → st'.stats k = w5st.stats k) ∧
      (st'.wl.items[w5p.question.index]?).map Prod.snd
          = some (st'.stats "D1:q").weight ∧
      (st'.wl.items[(⟨"wa", w5dca, 1⟩ : PromptCard).index]?).map Prod.snd
          = some (st'.stats "D2:w").weight ∧
      (∀ j, j ≠ w5p.question.index → j ≠ (⟨"wa", w5dca, 1⟩ : PromptCard).index →
        st'.wl.items[j]? = w5st.wl.items[j]?) ∧
      st'.wl.items.map Prod.fst = w5st.wl.items.map Prod.fst ∧
      st'.total_correct = w5st.total_correct :=
  c5_incorrect_updates_both w5p 1 w5st ⟨"wa", w5dca, 1⟩ false "D1:q" "D2:w"
    (by decide) (by decide) (by decide) (by decide) (by decide) (by decide)
    (by decide) (by decide)

/-- Question card (container slot 0) for the C5 counterexample's
index-collision part. -/
def x5dcA : DeckCard :=
  ⟨⟨"D1", ["F", "B"], [⟨[some (.single "q"), some (.single "qa")]⟩]⟩,
   ⟨[some (.single "q"), some (.single "qa")]⟩⟩

/-- Wrong-answer card for the index-collision part: it sits at container
slot 3, but its `PromptCard` reports swap-removal index 0 (after the
problem card is removed from slot 0 of the drained clone, the last element
swaps into slot 0 and is drawn there). -/
def x5dcD : DeckCard :=
  ⟨⟨"D2", ["F", "B"], [⟨[some (.single "w"), some (.single "wa")]⟩]⟩,
   ⟨[some (.single "w"), some (.single "wa")]⟩⟩

/-- Filler distractor card. -/
def x5dcB : DeckCard :=
  ⟨⟨"D3", ["F", "B"], [⟨[some (.single "e"), some (.single "eb")]⟩]⟩,
   ⟨[some (.single "e"), some (.single "eb")]⟩⟩

/-- Filler distractor card. -/
def x5dcC : DeckCard :=
  ⟨⟨"D4", ["F", "B"], [⟨[some (.single "f"), some (.single "fb")]⟩]⟩,
   ⟨[some (.single "f"), some (.single "fb")]⟩⟩

/-- Problem for the index-collision part: the wrong answer at list
position 1 carries container index 0 — the question's own index. -/
def x5p : MatchProblem :=
  ⟨⟨"q", x5dcA, 0⟩,
   [(⟨"qa", x5dcA, 0⟩, true), (⟨"wa", x5dcD, 0⟩, false),
    (⟨"eb", x5dcB, 1⟩, false), (⟨"fb", x5dcC, 2⟩, false)],
   0, none⟩

/-- Session state for the index-collision part: the wrong-answer card has
prior stats (2, 0), so its updated weight differs from the question's. -/
def x5st : SessionState :=
  ⟨fun k => if k = "D2:w" then ⟨2, 0⟩ else ⟨0, 0⟩,
   ⟨[(x5dcA, 1), (x5dcB, 1), (x5dcC, 1), (x5dcD, 1)], 4⟩, 0⟩

/-- Deck for the C5 counterexample's id-collision part: the first two
cards have structurally distinct fronts (`Single "a, b"` vs
`Multi ["a", "b"]`) that render to the same string, so they share the
`CardId` "D0:a, b"; deck validation compares fronts structurally and
accepts them. -/
def y5deck : Deck :=
  ⟨"D0", ["F", "B"],
   [⟨[some (.single "a, b"), some (.single "x")]⟩,
    ⟨[some (.multi ["a", "b"]), some (.single "y")]⟩,
    ⟨[some (.single "g"), some (.single "gb")]⟩,
    ⟨[some (.single "h"), some (.single "hb")]⟩]⟩

/-- Question card of the id-collision part. -/
def y5dc1 : DeckCard := ⟨y5deck, ⟨[some (.single "a, b"), some (.single "x")]⟩⟩

/-- Wrong-answer card of the id-collision part, sharing the question
card's `CardId`. -/
def y5dc2 : DeckCard := ⟨y5deck, ⟨[some (.multi ["a", "b"]), some (.single "y")]⟩⟩

/-- Filler distractor card. -/
def y5dc3 : DeckCard := ⟨y5deck, ⟨[some (.single "g"), some (.single "gb")]⟩⟩

/-- Filler distractor card. -/
def y5dc4 : DeckCard := ⟨y5deck, ⟨[some (.single "h"), some (.single "hb")]⟩⟩

/-- Problem for the id-collision part. -/
def y5p : MatchProblem :=
  ⟨⟨"x", y5dc1, 0⟩,
   [(⟨"x", y5dc1, 0⟩, true), (⟨"y", y5dc2, 1⟩, false),
    (⟨"gb", y5dc3, 2⟩, false), (⟨"hb", y5dc4, 3⟩, false)],
   0, none⟩

/-- Session state for the id-collision part. -/
def y5st : SessionState :=
  ⟨fun _ => ⟨0, 0⟩, ⟨[(y5dc1, 1), (y5dc2, 1), (y5dc3, 1), (y5dc4, 1)], 4⟩, 0⟩

/-- C5 counterexample.  Part one: when the chosen wrong answer's
`PromptCard.index` (a swap-removal position from the drained clone) equals
the question's container index, the weight stored at the question's
container index after the updates is *not* the question card's freshly
computed weight (the answer's update overwrote the same slot).  Part two:
when the two cards share a `CardId` (equal rendered fronts), that stats
entry is incremented by 2, not by exactly 1. -/
theorem c5_wrong_answer_counterexample :
    (∃ st', (resolve_match_result x5p 1).bind (fun r => match_result r x5st)
        = some st' ∧
      st'.stats "D1:q" = ⟨0, 1⟩ ∧
      (st'.wl.items[x5p.question.index]?).map Prod.snd
        ≠ some (st'.stats "D1:q").weight) ∧
    (∃ st', (resolve_match_result y5p 1).bind (fun r => match_result r y5st)
        = some st' ∧
      st'.stats "D0:a, b"
        ≠ { correct := (y5st.stats "D0:a, b").correct,
            incorrect := (y5st.stats "D0:a, b").incorrect + 1 }) := by
  constructor
  · have hresolve : resolve_match_result x5p 1
        = some (.incorrect x5p.question (⟨"wa", x5dcD, 0⟩ : PromptCard)) := rfl
    obtain ⟨st1, heq1, hs1, hw1, ht1⟩ :=
      update_incorrect_spec x5p.question x5st "D1:q" (by decide) (by decide)
    obtain ⟨st2, heq2, hs2, hw2, ht2⟩ :=
      update_incorrect_spec (⟨"wa", x5dcD, 0⟩ : PromptCard) st1 "D2:w"
        (by decide) (by rw [hw1, List.length_set]; decide)
    have hlen1 : (0 : Nat) < st1.wl.items.length := by
      rw [hw1, List.length_set]; decide
    have hst2q : st2.stats "D1:q" = ⟨0, 1⟩ := by
      simp only [hs2, if_neg (show ¬ ("D1:q" : String) = "D2:w" by decide),
        hs1, if_pos rfl]
      decide
    have hst2a : st2.stats "D2:w" = ⟨2, 1⟩ := by
      simp only [hs2, if_pos rfl, hs1,
        if_neg (show ¬ ("D2:w" : String) = "D1:q" by decide)]
      decide
    have hslot : (st2.wl.items[(0 : Nat)]?).map Prod.snd
        = some (st2.stats "D2:w").weight := by
      dsimp only at hw2
      rw [hw2, List.getElem?_set_self hlen1]
      rfl
    refine ⟨st2, ?_, hst2q, ?_⟩
    · simp [hresolve, match_result, heq1, heq2]
    · show (st2.wl.items[(0 : Nat)]?).map Prod.snd
          ≠ some (st2.stats "D1:q").weight
      rw [hslot, hst2q, hst2a]
      intro hcon
      have hval := Option.some.inj hcon
      norm_num [CardStats.weight] at hval
  · have hresolve : resolve_match_result y5p 1
        = some (.incorrect y5p.question (⟨"y", y5dc2, 1⟩ : PromptCard)) := rfl
    obtain ⟨st1, heq1, hs1, hw1, ht1⟩ :=
      update_incorrect_spec y5p.question y5st "D0:a, b" (by decide) (by decide)
    obtain ⟨st2, heq2, hs2, hw2, ht2⟩ :=
      update_incorrect_spec (⟨"y", y5dc2, 1⟩ : PromptCard) st1 "D0:a, b"
        (by decide) (by rw [hw1, List.length_set]; decide)
    have hst2 : st2.stats "D0:a, b" = ⟨0, 2⟩ := by
      simp only [hs2, if_pos rfl, hs1, if_pos rfl]
      decide
    refine ⟨st2, ?_, ?_⟩
    · simp [hresolve, match_result, heq1, heq2]
    · rw [hst2]
      decide

/-- Invariants of the distractor scan: every accepted entry carries the
answer-face value actually found on its card, this value was not in the
`seen_faces` list handed to the scan, the entry's question-face lookup never
yields the problem's question-face value, and the accepted answer-face
values are pairwise distinct. -/
theorem scanStep_accepted_props (qf af : String) (pqv : Face) :
    ∀ (cands : List CandEntry) (seen : List Face),
      (∀ e ∈ (scanStep qf af pqv cands seen).1,
          findFaceValue e.2.1 af = some e.1 ∧
          e.1 ∉ seen ∧
          (∀ qv, findFaceValue e.2.1 qf = some qv → qv ≠ pqv)) ∧
      ((scanStep qf af pqv cands seen).1.map (fun e => e.1)).Nodup := by
  intro cands
  induction cands with
  | nil => intro seen; simp [scanStep]
  | cons c rest ih =>
      intro seen
      cases hfind : findFaceValue c.1.1 af with
      | none =>
          have hred : scanStep qf af pqv (c :: rest) seen
              = scanStep qf af pqv rest seen := by
            simp only [scanStep, hfind]
          rw [hred]
          exact ih seen
      | some v =>
          by_cases hseen : v ∈ seen
          · have hred : scanStep qf af pqv (c :: rest) seen
                = scanStep qf af pqv rest seen := by
              simp only [scanStep, hfind, if_pos hseen]
            rw [hred]
            exact ih seen
          · cases hcol : (match findFaceValue c.1.1 qf with
                | some qv => decide (qv = pqv)
                | none => false : Bool) with
            | true =>
                have hred : scanStep qf af pqv (c :: rest) seen
                    = scanStep qf af pqv rest (v :: seen) := by
                  simp only [scanStep, hfind, if_neg hseen, hcol, if_true]
                rw [hred]
                obtain ⟨hmem, hnd⟩ := ih (v :: seen)
                refine ⟨?_, hnd⟩
                intro e he
                obtain ⟨h1, h2, h3⟩ := hmem e he
                exact ⟨h1, fun hh => h2 (List.mem_cons_of_mem v hh), h3⟩
            | false =>
                have hred : (scanStep qf af pqv (c :: rest) seen).1
                    = (v, c.1.1, c.2) :: (scanStep qf af pqv rest (v :: seen)).1 := by
                  simp only [scanStep, hfind, if_neg hseen, hcol]
                  simp
                rw [hred]
                obtain ⟨hmem, hnd⟩ := ih (v :: seen)
                constructor
                · intro e he
                  rcases List.mem_cons.mp he with he | he
                  · subst he
                    refine ⟨hfind, hseen, ?_⟩
                    intro qv hqv hcontra
                    rw [hqv] at hcol
                    rw [hcontra] at hcol
                    simp at hcol
                  · obtain ⟨h1, h2, h3⟩ := hmem e he
                    exact ⟨h1, fun hh => h2 (List.mem_cons_of_mem v hh), h3⟩
                · simp only [List.map_cons, List.nodup_cons]
                  refine ⟨?_, hnd⟩
                  intro hvm
                  obtain ⟨e, he, hev⟩ := List.mem_map.mp hvm
                  obtain ⟨_, h2, _⟩ := hmem e he
                  exact h2 (hev ▸ List.mem_cons_self v seen)

/-- Inversion of a successful `next` call: an `ok` result determines a
drawn card, selected faces, at least 4 assembled answers, a located correct
index, and the shape of the returned problem. -/
theorem next_ok_inversion (wl : WeightedList DeckCard)
    (filter? : Option (List String)) (line : Bool) (ch : NextChoices)
    (p : MatchProblem) (hok : next wl filter? line ch = .ok p) :
    ∃ dc pidx q a aidx,
      wl.get_random ch.needle = .drawn dc pidx ∧
      selectFaces filter? ch.qsel ch.asel = .ok (q, a) ∧
      ¬ (answerCards dc pidx q a ch.cands).length < ANSWERS_PER_PROBLEM ∧
      (ch.ansShuffle (answerCards dc pidx q a ch.cands)).findIdx?
          (fun e => e.2) = some aidx ∧
      p = { question := { prompt := q.2.2.join_random ch.jshuf,
                          deck_card := dc,
                          index := pidx },
            answers := renderAnswers ch.jshuf
              (ch.ansShuffle (answerCards dc pidx q a ch.cands)),
            answer_index := aidx,
            weights := if line then some wl.weights else none } := by
  unfold next at hok
  cases hget : wl.get_random ch.needle with
  | empty => rw [hget] at hok; exact NextResult.noConfusion hok
  | panicked => rw [hget] at hok; exact NextResult.noConfusion hok
  | drawn dc pidx =>
      rw [hget] at hok
      simp only [] at hok
      cases hsel : selectFaces filter? ch.qsel ch.asel with
      | error msg => rw [hsel] at hok; exact NextResult.noConfusion hok
      | ok qa =>
          obtain ⟨q, a⟩ := qa
          rw [hsel] at hok
          simp only [] at hok
          by_cases hlt : (answerCards dc pidx q a ch.cands).length
              < ANSWERS_PER_PROBLEM
          · rw [if_pos hlt] at hok
            exact NextResult.noConfusion hok
          · rw [if_neg hlt] at hok
            cases hidx : (ch.ansShuffle (answerCards dc pidx q a ch.cands)).findIdx?
                (fun e => e.2) with
            | none => rw [hidx] at hok; exact NextResult.noConfusion hok
            | some aidx =>
                rw [hidx] at hok
                refine ⟨dc, pidx, q, a, aidx, rfl, rfl, hlt, hidx, ?_⟩
                cases hok
                rfl

/-- C1 (amended): every `MatchProblem` returned as `Ok` by `next` has
exactly 4 answer entries, exactly one of them tagged correct, and the
entries arise by rendering a 4-entry answer list whose underlying
answer-face values are pairwise structurally distinct.  (The *rendered*
prompt strings need not be pairwise distinct; see the counterexample.) -/
theorem c1_answers_shape (wl : WeightedList DeckCard)
    (filter? : Option (List String)) (line : Bool) (ch : NextChoices)
    (hshuf : ∀ l, (ch.ansShuffle l).Perm l) (p : MatchProblem)
    (hok : next wl filter? line ch = .ok p) :
    p.answers.length = 4 ∧
    p.answers.countP (fun e => e.2) = 1 ∧
    ∃ entries : List AnswerEntry,
      p.answers = renderAnswers ch.jshuf entries ∧
      entries.length = 4 ∧
      entries.countP (fun e => e.2) = 1 ∧
      (entries.map (fun e => e.1.1)).Nodup := by
  obtain ⟨dc, pidx, q, a, aidx, hget, hsel, hlt, hidx, hp⟩ :=
    next_ok_inversion wl filter? line ch p hok
  obtain ⟨hmem, hnd⟩ :=
    scanStep_accepted_props q.2.1 a.2.1 q.2.2 ch.cands [a.2.2]
  have hperm := hshuf (answerCards dc pidx q a ch.cands)
  have htk : (((scanStep q.2.1 a.2.1 q.2.2 ch.cands [a.2.2]).1).take
      (ANSWERS_PER_PROBLEM - 1)).length ≤ 3 := by
    rw [List.length_take]
    exact min_le_left _ _
  have hacl0 : (answerCards dc pidx q a ch.cands).length
      = (((scanStep q.2.1 a.2.1 q.2.2 ch.cands [a.2.2]).1).take
          (ANSWERS_PER_PROBLEM - 1)).length + 1 := by
    simp [answerCards]
  have hA : ANSWERS_PER_PROBLEM = 4 := rfl
  have hacl : (answerCards dc pidx q a ch.cands).length = 4 := by
    rw [hA] at hlt
    omega
  have htail0 : List.countP (fun e => e.2)
      ((((scanStep q.2.1 a.2.1 q.2.2 ch.cands [a.2.2]).1).take
          (ANSWERS_PER_PROBLEM - 1)).map (fun x => (x, false))) = 0 := by
    rw [List.countP_map]
    exact List.countP_eq_zero.mpr (fun x _ => by simp [Function.comp])
  have hcount_ac : (answerCards dc pidx q a ch.cands).countP
      (fun e => e.2) = 1 := by
    unfold answerCards
    rw [List.countP_cons_of_pos _ _ (by rfl), htail0]
  have hfaces_ac : ((answerCards dc pidx q a ch.cands).map
      (fun e => e.1.1)).Nodup := by
    unfold answerCards
    rw [List.map_cons, List.map_map, List.nodup_cons]
    constructor
    · intro hmm
      obtain ⟨x, hx, hxe⟩ := List.mem_map.mp hmm
      have hx' : x ∈ (scanStep q.2.1 a.2.1 q.2.2 ch.cands [a.2.2]).1 :=
        List.Sublist.mem hx (List.take_sublist _ _)
      obtain ⟨_, h2, _⟩ := hmem x hx'
      exact h2 (by
        rw [show x.1 = a.2.2 from hxe]
        exact List.mem_singleton_self _)
    · have hsub : ((((scanStep q.2.1 a.2.1 q.2.2 ch.cands [a.2.2]).1).take
          (ANSWERS_PER_PROBLEM - 1)).map (fun e => e.1)).Sublist
            (((scanStep q.2.1 a.2.1 q.2.2 ch.cands [a.2.2]).1).map
              (fun e => e.1)) :=
        List.Sublist.map _ (List.take_sublist _ _)
      exact List.Nodup.sublist hsub hnd
  refine ⟨?_, ?_, ch.ansShuffle (answerCards dc pidx q a ch.cands),
      ?_, ?_, ?_, ?_⟩
  · rw [hp]
    show (renderAnswers ch.jshuf _).length = 4
    rw [renderAnswers, List.length_map, hperm.length_eq, hacl]
  · rw [hp]
    show (renderAnswers ch.jshuf _).countP (fun e => e.2) = 1
    rw [renderAnswers, List.countP_map]
    exact (List.Perm.countP_eq _ hperm).trans hcount_ac
  · rw [hp]
  · exact hperm.length_eq.trans hacl
  · exact (List.Perm.countP_eq _ hperm).trans hcount_ac
  · exact ((hperm.map (fun e => e.1.1)).nodup_iff).mpr hfaces_ac

/-- Concrete deck for the C1 counterexample: the first two cards carry
`Multi` answer faces that are structurally distinct but render to the same
string under some join order. -/
def cexDeck : Deck :=
  ⟨"E", ["Q", "A"],
   [⟨[some (.single "p"), some (.multi ["a", "b"])]⟩,
    ⟨[some (.single "r"), some (.multi ["b", "a"])]⟩,
    ⟨[some (.single "s"), some (.single "c")]⟩,
    ⟨[some (.single "t"), some (.single "d")]⟩]⟩

/-- The problem card of the C1 counterexample. -/
def cexP : DeckCard := ⟨cexDeck, ⟨[some (.single "p"), some (.multi ["a", "b"])]⟩⟩

/-- Distractor card whose `Multi` answer face is a reordering of the
problem card's. -/
def cexC1 : DeckCard := ⟨cexDeck, ⟨[some (.single "r"), some (.multi ["b", "a"])]⟩⟩

/-- Third card of the concrete pool. -/
def cexC2 : DeckCard := ⟨cexDeck, ⟨[some (.single "s"), some (.single "c")]⟩⟩

/-- Fourth card of the concrete pool. -/
def cexC3 : DeckCard := ⟨cexDeck, ⟨[some (.single "t"), some (.single "d")]⟩⟩

/-- The concrete weighted pool (all weights 1, total 4). -/
def cexWl : WeightedList DeckCard :=
  ⟨[(cexP, 1), (cexC1, 1), (cexC2, 1), (cexC3, 1)], 4⟩

/-- A reachable random outcome on the concrete pool: needle 0 draws the
first card, the face shuffle keeps declaration order, the candidate shuffle
visits the three distractors before the problem card, the answer shuffle is
the identity, and the join shuffle maps `["b", "a"]` to `["a", "b"]`. -/
def cexCh : NextChoices :=
  { needle := 0
    qsel := [(0, "Q", .single "p"), (1, "A", .multi ["a", "b"])]
    asel := []
    cands := [((cexC1, 1), 1), ((cexC2, 1), 2), ((cexC3, 1), 3), ((cexP, 1), 0)]
    ansShuffle := id
    jshuf := fun ss => if ss = ["b", "a"] then ["a", "b"] else ss }

/-- The concrete draw on `cexWl` with needle 0 yields the first card. -/
theorem cexWl_draw : cexWl.get_random cexCh.needle = .drawn cexP 0 := by
  show cexWl.get_random 0 = .drawn cexP 0
  unfold cexWl WeightedList.get_random WeightedList.random_index cumFind
  norm_num

/-- The problem `next` produces on the concrete pool under `cexCh`. -/
def cexProblem : MatchProblem :=
  ⟨⟨"p", cexP, 0⟩,
   [(⟨"a, b", cexP, 0⟩, true), (⟨"a, b", cexC1, 1⟩, false),
    (⟨"c", cexC2, 2⟩, false), (⟨"d", cexC3, 3⟩, false)],
   0, none⟩

/-- Evaluation of `next` on the concrete pool under the concrete random
outcome `cexCh`. -/
theorem cex_next_ok : next cexWl none false cexCh = .ok cexProblem := by
  unfold next
  rw [cexWl_draw]
  rfl

/-- C1 counterexample: on the concrete pool, `next` returns `Ok` with 4
answers, exactly one correct, yet two of the rendered answer display
strings coincide (`Multi ["a","b"]` and `Multi ["b","a"]` both render
"a, b"), so the claimed pairwise distinctness of the 4 rendered answer
display strings is false. -/
theorem c1_prompt_distinct_counterexample :
    ∃ p, next cexWl none false cexCh = .ok p ∧
      p.answers.length = 4 ∧
      p.answers.countP (fun e => e.2) = 1 ∧
      ¬ (p.answers.map (fun e => e.1.prompt)).Nodup :=
  ⟨cexProblem, cex_next_ok, by decide, by decide, by decide⟩

/-- Witness for C1 at the concrete pool: `next` returns `Ok` and the
amended shape properties hold there. -/
theorem c1_answers_shape_witness :
    ∃ p, next cexWl none false cexCh = .ok p ∧
      p.answers.length = 4 ∧ p.answers.countP (fun e => e.2) = 1 := by
  obtain ⟨h1, h2, _⟩ := c1_answers_shape cexWl none false cexCh
    (fun l => List.Perm.refl l) cexProblem cex_next_ok
  exact ⟨cexProblem, cex_next_ok, h1, h2⟩

/-- The question face selected by `selectFaces` is one of the entries of
the (shuffled) `possible_faces` list it searched. -/
theorem selectFaces_mem_q (filter? : Option (List String))
    (qsel asel : List PossibleFace) (q a : PossibleFace)
    (h : selectFaces filter? qsel asel = .ok (q, a)) : q ∈ qsel := by
  cases filter? with
  | some faces =>
      unfold selectFaces at h
      dsimp only at h
      cases hf : qsel.find? (fun pf => faces.any (fun s => pf.2.1 = s)) with
      | none => rw [hf] at h; exact Except.noConfusion h
      | some q' =>
          rw [hf] at h
          dsimp only at h
          cases ha : asel.find? (fun pf => pf.1 ≠ q'.1) with
          | none => rw [ha] at h; exact Except.noConfusion h
          | some a' =>
              rw [ha] at h
              cases h
              exact List.mem_of_find?_eq_some hf
  | none =>
      unfold selectFaces at h
      dsimp only at h
      match qsel, h with
      | q1 :: a1 :: rest, h =>
          cases h
          exact List.mem_cons_self _ _

/-- C3: for every problem `next` returns as `Ok`, with `(q, a)` the
question/answer faces the run actually selected, the problem's question is
the rendering of `q`'s value (a present face of the drawn card), and no
incorrect answer option's underlying card has a value on the selected
question-face name structurally equal to the problem card's question-face
value (a candidate card lacking the question face entirely is not excluded
by this rule; only the correct answer's card may share the value). -/
theorem c3_no_question_collision (wl : WeightedList DeckCard)
    (filter? : Option (List String)) (line : Bool) (ch : NextChoices)
    (dc : DeckCard) (pidx : Nat) (q a : PossibleFace)
    (hget : wl.get_random ch.needle = .drawn dc pidx)
    (hq : ∀ x ∈ ch.qsel, x ∈ dc.possible_faces)
    (hsel : selectFaces filter? ch.qsel ch.asel = .ok (q, a))
    (hshuf : ∀ l, (ch.ansShuffle l).Perm l)
    (p : MatchProblem) (hok : next wl filter? line ch = .ok p) :
    p.question.deck_card = dc ∧
    (q.1, q.2.1, q.2.2) ∈ dc.possible_faces ∧
    p.question.prompt = q.2.2.join_random ch.jshuf ∧
    ∀ e ∈ p.answers, e.2 = false →
      ∀ v, findFaceValue e.1.deck_card q.2.1 = some v → v ≠ q.2.2 := by
  obtain ⟨dc', pidx', q', a', aidx, hget', hsel', hlt, hidx, hp⟩ :=
    next_ok_inversion wl filter? line ch p hok
  rw [hget] at hget'
  obtain ⟨hdc, hpidx⟩ : dc' = dc ∧ pidx' = pidx := by
    cases hget'; exact ⟨rfl, rfl⟩
  rw [hdc, hpidx] at hp
  have hpair : (q', a') = (q, a) := Except.ok.inj (hsel'.symm.trans hsel)
  obtain ⟨hqeq, haeq⟩ : q' = q ∧ a' = a := by
    cases hpair; exact ⟨rfl, rfl⟩
  rw [hqeq, haeq] at hp
  obtain ⟨hmem, _⟩ :=
    scanStep_accepted_props q.2.1 a.2.1 q.2.2 ch.cands [a.2.2]
  have hqf : (q.1, q.2.1, q.2.2) ∈ dc.possible_faces := by
    have := hq q (selectFaces_mem_q filter? ch.qsel ch.asel q a hsel)
    simpa using this
  refine ⟨by rw [hp], hqf, by rw [hp], ?_⟩
  intro e he hff v hvf
  rw [hp] at he
  simp only [renderAnswers, List.mem_map] at he
  obtain ⟨x, hx, hxe⟩ := he
  have hxc : x ∈ answerCards dc pidx q a ch.cands :=
    ((hshuf _).mem_iff).mp hx
  have hxfalse : x.2 = false := by rw [← hxe] at hff; exact hff
  unfold answerCards at hxc
  rcases List.mem_cons.mp hxc with hhd | htl
  · rw [hhd] at hxfalse
    exact absurd hxfalse (by simp)
  · obtain ⟨y, hy, hyx⟩ := List.mem_map.mp htl
    have hy' : y ∈ (scanStep q.2.1 a.2.1 q.2.2 ch.cands [a.2.2]).1 :=
      List.Sublist.mem hy (List.take_sublist _ _)
    obtain ⟨_, _, h3⟩ := hmem y hy'
    have hcard : e.1.deck_card = y.2.1 := by
      rw [← hxe, ← hyx]
    rw [hcard] at hvf
    exact h3 v hvf

/-- Witness for C3 at the concrete pool `cexWl` and outcome `cexCh`: the
selected question face there is `(0, "Q", Face.single "p")`. -/
theorem c3_no_question_collision_witness :
    cexProblem.question.deck_card = cexP ∧
    ((0 : Nat), "Q", Face.single "p") ∈ cexP.possible_faces ∧
    cexProblem.question.prompt = (Face.single "p").join_random cexCh.jshuf ∧
    ∀ e ∈ cexProblem.answers, e.2 = false →
      ∀ v, findFaceValue e.1.deck_card "Q" = some v → v ≠ Face.single "p" :=
  c3_no_question_collision cexWl none false cexCh cexP 0
    (0, "Q", Face.single "p") (1, "A", Face.multi ["a", "b"]) cexWl_draw
    (by decide) rfl (fun l => List.Perm.refl l) cexProblem cex_next_ok

/-- A stored item is a "fresh" candidate for answer face `af` w.r.t. a
seen-set: it exposes `af` and its value is not yet seen. -/
def itemFresh (af : String) (seen : List Face) (it : DeckCard × ℚ) : Bool :=
  match findFaceValue it.1 af with
  | some v => decide (v ∉ seen)
  | none => false

/-- Freshness is antitone in the seen-set. -/
theorem itemFresh_mono (af : String) (s s' : List Face)
    (hss : ∀ x ∈ s, x ∈ s') (it : DeckCard × ℚ)
    (h : itemFresh af s' it = true) : itemFresh af s it = true := by
  unfold itemFresh at h ⊢
  cases hfv : findFaceValue it.1 af with
  | none =>
      rw [hfv] at h
      simp at h
  | some v =>
      rw [hfv] at h
      dsimp only at h ⊢
      simp only [decide_eq_true_eq] at h ⊢
      exact fun hv => h (hss v hv)

/-- The scan accepts at most as many entries as there are candidates whose
answer-face value is present and not already seen. -/
theorem scanStep_length_le (qf af : String) (pqv : Face) :
    ∀ (cands : List CandEntry) (seen : List Face),
      (scanStep qf af pqv cands seen).1.length ≤
        cands.countP (fun c => itemFresh af seen c.1) := by
  intro cands
  induction cands with
  | nil => intro seen; simp [scanStep]
  | cons c rest ih =>
      intro seen
      cases hfv : findFaceValue c.1.1 af with
      | none =>
          have hred : scanStep qf af pqv (c :: rest) seen
              = scanStep qf af pqv rest seen := by
            simp only [scanStep, hfv]
          have hcount : (c :: rest).countP (fun x => itemFresh af seen x.1)
              = rest.countP (fun x => itemFresh af seen x.1) := by
            rw [List.countP_cons]
            simp [itemFresh, hfv]
          rw [hred, hcount]
          exact ih seen
      | some v =>
          by_cases hseen : v ∈ seen
          · have hred : scanStep qf af pqv (c :: rest) seen
                = scanStep qf af pqv rest seen := by
              simp only [scanStep, hfv, if_pos hseen]
            have hcount : (c :: rest).countP (fun x => itemFresh af seen x.1)
                = rest.countP (fun x => itemFresh af seen x.1) := by
              rw [List.countP_cons]
              simp [itemFresh, hfv, hseen]
            rw [hred, hcount]
            exact ih seen
          · have hmono : rest.countP (fun x => itemFresh af (v :: seen) x.1)
                ≤ rest.countP (fun x => itemFresh af seen x.1) := by
              apply List.countP_mono_left
              intro x _ hx
              exact itemFresh_mono af seen (v :: seen)
                (fun y hy => List.mem_cons_of_mem v hy) x.1 hx
            have hcount : (c :: rest).countP (fun x => itemFresh af seen x.1)
                = rest.countP (fun x => itemFresh af seen x.1) + 1 := by
              rw [List.countP_cons]
              simp [itemFresh, hfv, hseen]
            cases hcol : (match findFaceValue c.1.1 qf with
                | some qv => decide (qv = pqv)
                | none => false : Bool) with
            | true =>
                have hred : scanStep qf af pqv (c :: rest) seen
                    = scanStep qf af pqv rest (v :: seen) := by
                  simp only [scanStep, hfv, if_neg hseen, hcol, if_true]
                rw [hred, hcount]
                exact le_trans (ih (v :: seen)) (le_trans hmono (Nat.le_succ _))
            | false =>
                have hred : (scanStep qf af pqv (c :: rest) seen).1
                    = (v, c.1.1, c.2) ::
                        (scanStep qf af pqv rest (v :: seen)).1 := by
                  simp only [scanStep, hfv, if_neg hseen, hcol]
                  simp
                rw [hred, hcount, List.length_cons]
                exact Nat.succ_le_succ (le_trans (ih (v :: seen)) hmono)

/-- A two-or-more-element list permuting a two-element list of distinct
elements consists of exactly those two elements, in one of the two
orders. -/
theorem perm_pair_cases {α : Type} [DecidableEq α] (u v x y : α)
    (rest : List α) (h : (u :: v :: rest).Perm [x, y]) (hxy : x ≠ y) :
    rest = [] ∧ ((u = x ∧ v = y) ∨ (u = y ∧ v = x)) := by
  have hlen := h.length_eq
  simp only [List.length_cons, List.length_nil] at hlen
  have hrest : rest = [] := List.eq_nil_of_length_eq_zero (by omega)
  subst hrest
  refine ⟨rfl, ?_⟩
  have hu : u ∈ [x, y] := h.mem_iff.mp (List.mem_cons_self _ _)
  have hv : v ∈ [x, y] := h.mem_iff.mp (by simp)
  simp only [List.mem_cons, List.mem_singleton, List.not_mem_nil, or_false]
    at hu hv
  rcases hu with hu | hu
  · rcases hv with hv | hv
    · exfalso
      have hc := h.count_eq y
      rw [hu, hv] at hc
      simp [List.count_cons, hxy, Ne.symm hxy] at hc
    · exact Or.inl ⟨hu, hv⟩
  · rcases hv with hv | hv
    · exact Or.inr ⟨hu, hv⟩
    · exfalso
      have hc := h.count_eq x
      rw [hu, hv] at hc
      simp [List.count_cons, hxy, Ne.symm hxy] at hc

/-- When the drawn card and selected faces yield fewer than
`ANSWERS_PER_PROBLEM` assembled answers, `next` returns the `DeckMismatch`
error built from the question value, question face name, deck name and
answer face name. -/
theorem next_mismatch_of_short (wl : WeightedList DeckCard)
    (filter? : Option (List String)) (line : Bool) (ch : NextChoices)
    (dc : DeckCard) (pidx : Nat) (q a : PossibleFace)
    (hget : wl.get_random ch.needle = .drawn dc pidx)
    (hsel : selectFaces filter? ch.qsel ch.asel = .ok (q, a))
    (hlt : (answerCards dc pidx q a ch.cands).length < ANSWERS_PER_PROBLEM) :
    next wl filter? line ch
      = .mismatch (mismatchMsg q.2.2 q.2.1 dc.deck.name a.2.1) := by
  unfold next
  rw [hget]
  dsimp only
  rw [hsel]
  dsimp only
  rw [if_pos hlt]

/-- Scenario deck for C2: one deck with faces F/B and only 3 cards, so only
3 cards in total expose the answer face. -/
def scDeck : Deck :=
  ⟨"S", ["F", "B"],
   [⟨[some (.single "x0"), some (.single "y0")]⟩,
    ⟨[some (.single "x1"), some (.single "y1")]⟩,
    ⟨[some (.single "x2"), some (.single "y2")]⟩]⟩

/-- First scenario card. -/
def scD0 : DeckCard := ⟨scDeck, ⟨[some (.single "x0"), some (.single "y0")]⟩⟩

/-- Second scenario card. -/
def scD1 : DeckCard := ⟨scDeck, ⟨[some (.single "x1"), some (.single "y1")]⟩⟩

/-- Third scenario card. -/
def scD2 : DeckCard := ⟨scDeck, ⟨[some (.single "x2"), some (.single "y2")]⟩⟩

/-- The 3-card scenario pool (all weights 1, total 3). -/
def scWl : WeightedList DeckCard := ⟨[(scD0, 1), (scD1, 1), (scD2, 1)], 3⟩

/-- On the scenario pool, whatever card is drawn and whichever face order
the shuffle picks, at most 2 distractors can be accepted, so `next` fails
with `DeckMismatch`. -/
theorem sc_mismatch_aux (line : Bool) (ch : NextChoices) (dc : DeckCard)
    (i : Nat) (hdraw : scWl.get_random ch.needle = .drawn dc i)
    (hcands : (ch.cands.map Prod.fst).Perm scWl.items)
    (u v : PossibleFace) (hq : ch.qsel = u :: v :: [])
    (hcount : scWl.items.countP (itemFresh v.2.1 [v.2.2]) ≤ 2) :
    ∃ m, next scWl none line ch = .mismatch m := by
  have hsel : selectFaces none ch.qsel ch.asel = .ok (u, v) := by
    rw [hq]
    rfl
  have hscan := scanStep_length_le u.2.1 v.2.1 u.2.2 ch.cands [v.2.2]
  have htrans : ch.cands.countP (fun x => itemFresh v.2.1 [v.2.2] x.1)
      = scWl.items.countP (itemFresh v.2.1 [v.2.2]) := by
    have h1 : (ch.cands.map Prod.fst).countP (itemFresh v.2.1 [v.2.2])
        = ch.cands.countP (fun x => itemFresh v.2.1 [v.2.2] x.1) := by
      rw [List.countP_map]
      exact List.countP_congr (fun x _ => Iff.rfl)
    rw [← h1]
    exact List.Perm.countP_eq _ hcands
  have htake : (((scanStep u.2.1 v.2.1 u.2.2 ch.cands [v.2.2]).1).take
      (ANSWERS_PER_PROBLEM - 1)).length
      ≤ ((scanStep u.2.1 v.2.1 u.2.2 ch.cands [v.2.2]).1).length := by
    rw [List.length_take]
    exact min_le_right _ _
  have hlen : (answerCards dc i u v ch.cands).length
      = (((scanStep u.2.1 v.2.1 u.2.2 ch.cands [v.2.2]).1).take
          (ANSWERS_PER_PROBLEM - 1)).length + 1 := by
    simp [answerCards]
  have hA : ANSWERS_PER_PROBLEM = 4 := rfl
  have hlt : (answerCards dc i u v ch.cands).length < ANSWERS_PER_PROBLEM := by
    rw [hA]
    rw [htrans] at hscan
    omega
  exact ⟨_, next_mismatch_of_short scWl none line ch dc i u v hdraw hsel hlt⟩

/-- C2: whenever the assembled answers (correct + collected distractors)
number fewer than `ANSWERS_PER_PROBLEM` after the candidate scan, `next`
returns the `DeckMismatch` error whose message is built from the question
value, the question face name, the deck name and the answer face name; in
particular, on a pool whose 3 cards are the only ones exposing the answer
face, every valid draw and face shuffle makes `next` fail with
`DeckMismatch` rather than return a problem with fewer than 4 options. -/
theorem c2_deck_mismatch :
    (∀ (wl : WeightedList DeckCard) (filter? : Option (List String))
        (line : Bool) (ch : NextChoices) (dc : DeckCard) (pidx : Nat)
        (q a : PossibleFace),
        wl.get_random ch.needle = .drawn dc pidx →
        selectFaces filter? ch.qsel ch.asel = .ok (q, a) →
        (answerCards dc pidx q a ch.cands).length < ANSWERS_PER_PROBLEM →
        next wl filter? line ch
          = .mismatch (mismatchMsg q.2.2 q.2.1 dc.deck.name a.2.1)) ∧
    (∀ (line : Bool) (ch : NextChoices),
        0 ≤ ch.needle → ch.needle < scWl.total_weight →
        (ch.cands.map Prod.fst).Perm scWl.items →
        (∀ dc i, scWl.get_random ch.needle = .drawn dc i →
          ch.qsel.Perm dc.possible_faces) →
        ∃ m, next scWl none line ch = .mismatch m) := by
  constructor
  · intro wl filter? line ch dc pidx q a hget hsel hlt
    exact next_mismatch_of_short wl filter? line ch dc pidx q a hget hsel hlt
  · intro line ch hn0 hn1 hcands hqsel
    have hsum : scWl.total_weight = sumWeights scWl := by
      show (3:ℚ) = sumWeights scWl
      simp [scWl, sumWeights]
      norm_num
    have hpos : (0:ℚ) < scWl.total_weight := by norm_num [scWl]
    obtain ⟨i, it, hit, hdraw⟩ :=
      get_random_valid scWl ch.needle hsum hpos hn0 hn1
    have hqperm := hqsel it.1 i hdraw
    have hi3 : i < 3 := by
      by_contra hge
      rw [List.getElem?_eq_none (by simpa [scWl] using Nat.le_of_not_lt hge)]
        at hit
      exact Option.noConfusion hit
    interval_cases i
    · have hits : it = (scD0, 1) :=
        (Option.some.inj ((rfl : scWl.items[0]? = some (scD0, 1)).symm.trans
          hit)).symm
      subst hits
      have hpf : ((scD0, (1:ℚ)).1).possible_faces
          = [(0, "F", Face.single "x0"), (1, "B", Face.single "y0")] := rfl
      rw [hpf] at hqperm
      rcases hqe : ch.qsel with _ | ⟨u, _ | ⟨v, rest⟩⟩ <;> rw [hqe] at hqperm
      · have := hqperm.length_eq; simp at this
      · have := hqperm.length_eq; simp at this
      · obtain ⟨hrest, hcase⟩ := perm_pair_cases u v _ _ rest hqperm (by decide)
        subst hrest
        rcases hcase with ⟨hu, hv⟩ | ⟨hu, hv⟩ <;> subst hu hv <;>
          exact sc_mismatch_aux line ch _ 0 hdraw hcands _ _ hqe (by decide)
    · have hits : it = (scD1, 1) :=
        (Option.some.inj ((rfl : scWl.items[1]? = some (scD1, 1)).symm.trans
          hit)).symm
      subst hits
      have hpf : ((scD1, (1:ℚ)).1).possible_faces
          = [(0, "F", Face.single "x1"), (1, "B", Face.single "y1")] := rfl
      rw [hpf] at hqperm
      rcases hqe : ch.qsel with _ | ⟨u, _ | ⟨v, rest⟩⟩ <;> rw [hqe] at hqperm
      · have := hqperm.length_eq; simp at this
      · have := hqperm.length_eq; simp at this
      · obtain ⟨hrest, hcase⟩ := perm_pair_cases u v _ _ rest hqperm (by decide)
        subst hrest
        rcases hcase with ⟨hu, hv⟩ | ⟨hu, hv⟩ <;> subst hu hv <;>
          exact sc_mismatch_aux line ch _ 1 hdraw hcands _ _ hqe (by decide)
    · have hits : it = (scD2, 1) :=
        (Option.some.inj ((rfl : scWl.items[2]? = some (scD2, 1)).symm.trans
          hit)).symm
      subst hits
      have hpf : ((scD2, (1:ℚ)).1).possible_faces
          = [(0, "F", Face.single "x2"), (1, "B", Face.single "y2")] := rfl
      rw [hpf] at hqperm
      rcases hqe : ch.qsel with _ | ⟨u, _ | ⟨v, rest⟩⟩ <;> rw [hqe] at hqperm
      · have := hqperm.length_eq; simp at this
      · have := hqperm.length_eq; simp at this
      · obtain ⟨hrest, hcase⟩ := perm_pair_cases u v _ _ rest hqperm (by decide)
        subst hrest
        rcases hcase with ⟨hu, hv⟩ | ⟨hu, hv⟩ <;> subst hu hv <;>
          exact sc_mismatch_aux line ch _ 2 hdraw hcands _ _ hqe (by decide)

/-- A concrete random outcome on the scenario pool: needle 0 draws the
first card, faces in declaration order, candidates in pool order. -/
def scCh : NextChoices :=
  { needle := 0
    qsel := [(0, "F", .single "x0"), (1, "B", .single "y0")]
    asel := []
    cands := [((scD0, 1), 0), ((scD1, 1), 1), ((scD2, 1), 2)]
    ansShuffle := id
    jshuf := id }

/-- The concrete draw on the scenario pool with needle 0. -/
theorem scWl_draw : scWl.get_random scCh.needle = .drawn scD0 0 := by
  show scWl.get_random 0 = .drawn scD0 0
  unfold scWl WeightedList.get_random WeightedList.random_index cumFind
  norm_num

/-- Witness for C2: on the 3-card scenario pool, both the exact mismatch
message and the scenario failure are realised at a concrete outcome. -/
theorem c2_deck_mismatch_witness :
    next scWl none false scCh
      = .mismatch (mismatchMsg (Face.single "x0") "F" scD0.deck.name "B") ∧
    ∃ m, next scWl none false scCh = .mismatch m := by
  constructor
  · exact c2_deck_mismatch.1 scWl none false scCh scD0 0
      (0, "F", .single "x0") (1, "B", .single "y0") scWl_draw rfl (by decide)
  · exact c2_deck_mismatch.2 false scCh le_rfl (by norm_num [scWl, scCh])
      (by decide)
      (fun dc i h => by
        have hsame := scWl_draw.symm.trans h
        cases hsame
        decide)

/-- The iterator construction appends exactly the given deck-cards, in
order, to the (empty) weighted list. -/
theorem newIter_items (stats : String → CardStats) :
    ∀ (dcs : List DeckCard) (wl0 wl : WeightedList DeckCard),
      (dcs.foldlM (fun wl dc => (cardId dc).bind
        (fun id => wl.add (dc, (stats id).weight))) wl0) = some wl →
      wl.items.map Prod.fst = wl0.items.map Prod.fst ++ dcs := by
  intro dcs
  induction dcs with
  | nil =>
      intro wl0 wl h
      simp only [List.foldlM_nil] at h
      cases h
      simp
  | cons d rest ih =>
      intro wl0 wl h
      simp only [List.foldlM_cons] at h
      cases hid : cardId d with
      | none => rw [hid] at h; simp at h
      | some id =>
          rw [hid] at h
          simp only [Option.some_bind] at h
          unfold WeightedList.add at h
          rw [if_neg (not_lt.mpr (CardStats.weight_pos _).le)] at h
          simp only [Option.bind_eq_bind, Option.some_bind] at h
          have := ih _ wl h
          simpa [List.append_assoc] using this

/-- C8: the distractor-candidate scan of `next` ranges over the whole
weighted pool, and — with the pool built (as the spec's data flow
describes, `ModeArguments` being absent from `src/`) from the flattened
cards of *all* loaded decks — every card of every loaded deck that exposes
the answer-face name occurs in the scanned candidate sequence. -/
theorem c8_scan_covers_all_decks (decks : List Deck)
    (stats : String → CardStats) (wl : WeightedList DeckCard)
    (ch : NextChoices) (af : String)
    (hnew : newIter (flattenDecks decks) stats = some wl)
    (hcands : (ch.cands.map Prod.fst).Perm wl.items)
    (d : Deck) (c : Card) (hd : d ∈ decks) (hc : c ∈ d.cards)
    (hexp : (findFaceValue ⟨d, c⟩ af).isSome = true) :
    ∃ e ∈ ch.cands, e.1.1 = (⟨d, c⟩ : DeckCard) ∧
      (findFaceValue e.1.1 af).isSome = true := by
  have hitems : wl.items.map Prod.fst = flattenDecks decks := by
    have := newIter_items stats (flattenDecks decks)
      (WeightedList.empty DeckCard) wl hnew
    simpa [WeightedList.empty] using this
  have hmem : (⟨d, c⟩ : DeckCard) ∈ flattenDecks decks := by
    unfold flattenDecks
    simp only [List.mem_flatMap, List.mem_map]
    exact ⟨d, hd, c, hc, rfl⟩
  rw [← hitems] at hmem
  have hmem2 : (⟨d, c⟩ : DeckCard) ∈ (ch.cands.map Prod.fst).map Prod.fst :=
    ((hcands.map Prod.fst).mem_iff).mpr hmem
  rw [List.map_map] at hmem2
  obtain ⟨e, he, hedc⟩ := List.mem_map.mp hmem2
  refine ⟨e, he, hedc, ?_⟩
  rw [show e.1.1 = (⟨d, c⟩ : DeckCard) from hedc]
  exact hexp

/-- Single-card deck for the C8 witness. -/
def w8deck : Deck := ⟨"D8", ["F", "B"],
  [⟨[some (.single "f0"), some (.single "b0")]⟩]⟩

/-- The deck-card of the C8 witness deck. -/
def w8dc : DeckCard := ⟨w8deck, ⟨[some (.single "f0"), some (.single "b0")]⟩⟩

/-- The (symbolic) weight of a zero-valued stats entry. -/
def w8 : ℚ := CardStats.weight ⟨0, 0⟩

/-- Evaluation of the iterator construction on the single-card deck. -/
theorem w8_newIter_eval :
    newIter (flattenDecks [w8deck]) (fun _ => ⟨0, 0⟩)
      = some ⟨[(w8dc, w8)], 0 + w8⟩ := by
  have hw : ¬ w8 < 0 := not_lt.mpr (CardStats.weight_pos _).le
  have hflat : flattenDecks [w8deck] = [w8dc] := rfl
  rw [newIter, hflat]
  simp only [List.foldlM_cons, List.foldlM_nil]
  rw [show cardId w8dc = some "D8:f0" from rfl]
  simp only [Option.some_bind]
  unfold WeightedList.add WeightedList.empty
  rw [show ((w8dc, ({ correct := 0, incorrect := 0 } : CardStats).weight).2)
        = w8 from rfl,
     if_neg hw]
  simp only [Option.bind_eq_bind, Option.some_bind, List.nil_append]
  rfl

/-- Witness for C8 at the single-card deck: the one card exposing face "B"
occurs in the candidate scan. -/
theorem c8_scan_covers_all_decks_witness :
    ∃ e ∈ [((w8dc, w8), 0)], e.1.1 = w8dc ∧
      (findFaceValue e.1.1 "B").isSome = true :=
  c8_scan_covers_all_decks [w8deck] (fun _ => ⟨0, 0⟩)
    ⟨[(w8dc, w8)], 0 + w8⟩
    { needle := 0, qsel := [], asel := [], cands := [((w8dc, w8), 0)],
      ansShuffle := id, jshuf := id }
    "B" w8_newIter_eval (List.Perm.refl _) w8deck
    ⟨[some (.single "f0"), some (.single "b0")]⟩
    (by decide) (by decide) (by decide)

/-- First deck of the C9 pool. -/
def c9Deck1 : Deck :=
  ⟨"G1", ["Q", "A"],
   [⟨[some (.single "q0"), some (.single "a0")]⟩,
    ⟨[some (.single "q1"), some (.single "a1")]⟩,
    ⟨[some (.single "q2"), some (.single "a2")]⟩,
    ⟨[some (.single "q3"), some (.single "a3")]⟩]⟩

/-- Second deck of the C9 pool: its only card shares the problem card's
question-face value "q0" but carries the answer value "a1". -/
def c9Deck2 : Deck :=
  ⟨"G2", ["Q", "A"], [⟨[some (.single "q0"), some (.single "a1")]⟩]⟩

/-- The C9 problem card. -/
def c9P : DeckCard := ⟨c9Deck1, ⟨[some (.single "q0"), some (.single "a0")]⟩⟩

/-- The viable distractor whose answer value "a1" gets poisoned. -/
def c9Y : DeckCard := ⟨c9Deck1, ⟨[some (.single "q1"), some (.single "a1")]⟩⟩

/-- A second viable distractor. -/
def c9Z : DeckCard := ⟨c9Deck1, ⟨[some (.single "q2"), some (.single "a2")]⟩⟩

/-- A third viable distractor. -/
def c9W : DeckCard := ⟨c9Deck1, ⟨[some (.single "q3"), some (.single "a3")]⟩⟩

/-- The saboteur card: fresh answer value "a1", but question value "q0"
colliding with the problem's. -/
def c9X : DeckCard := ⟨c9Deck2, ⟨[some (.single "q0"), some (.single "a1")]⟩⟩

/-- The C9 pool: 5 cards, all weights 1. -/
def c9Wl : WeightedList DeckCard :=
  ⟨[(c9P, 1), (c9Y, 1), (c9Z, 1), (c9W, 1), (c9X, 1)], 5⟩

/-- A reachable random outcome on the C9 pool: the problem card is drawn,
faces in declaration order, and the candidate shuffle visits the saboteur
`c9X` before the viable distractor `c9Y`. -/
def c9Ch : NextChoices :=
  { needle := 0
    qsel := [(0, "Q", .single "q0"), (1, "A", .single "a0")]
    asel := []
    cands := [((c9X, 1), 4), ((c9Y, 1), 1), ((c9Z, 1), 2), ((c9W, 1), 3),
              ((c9P, 1), 0)]
    ansShuffle := id
    jshuf := id }

/-- The concrete draw on the C9 pool with needle 0. -/
theorem c9Wl_draw : c9Wl.get_random c9Ch.needle = .drawn c9P 0 := by
  show c9Wl.get_random 0 = .drawn c9P 0
  unfold c9Wl WeightedList.get_random WeightedList.random_index cumFind
  norm_num

/-- C9: in the distractor scan a candidate's fresh answer-face value is
pushed onto `seen_faces` *before* the question-face collision check — the
scan step on the saboteur alone accepts nothing yet records "a1" as seen —
so a candidate rejected solely for question-face collision excludes every
later candidate with a structurally equal answer value; consequently, on a
pool containing 4 cards with pairwise distinct answer values (none of
which, besides the problem card itself, collides with the problem's
question value), `next` can still return `DeckMismatch`. -/
theorem c9_seen_poisoning :
    (scanStep "Q" "A" (Face.single "q0") [((c9X, 1), 4)] [Face.single "a0"]
      = ([], [Face.single "a1", Face.single "a0"])) ∧
    next c9Wl none false c9Ch
      = .mismatch (mismatchMsg (Face.single "q0") "Q" "G1" "A") ∧
    ([c9P, c9Y, c9Z, c9W].map (fun dc => findFaceValue dc "A")).Nodup ∧
    (∀ dc ∈ [c9Y, c9Z, c9W],
      findFaceValue dc "Q" ≠ findFaceValue c9P "Q") := by
  refine ⟨by decide, ?_, by decide, by decide⟩
  unfold next
  rw [c9Wl_draw]
  rfl

end Flashr
